import Mathlib

/-!
# Verification of the incremental extraction-and-reconciliation controller

Shallow embedding of `src/combined-scraper.js` (class `CombinedGoogleMapsScraper`).
The browser-automation substrate and the durable store are modelled as oracles
supplied by an environment record; the controller logic (the main loop of
`scrapeUrlsAndDetails`, the commit pipeline `insertWithRetry`, the run
`scrapeAndEnrich` with its final correction step, and the pure value transform
`formatPhoneNumber`) is translated statement by statement from the source.

Side effects that the source produces via callbacks or store writes
(progress-callback invocations, rows handed to the insert pipeline, URLs
navigated to for extraction) are recorded in explicit logs threaded through the
state, so that theorems can speak about them.
-/

/-! ## String helpers (JS semantics) -/

/-- The digit characters of a string, in order: models
`phoneNumber.replace(/\D/g, '')` (strip every non-digit). -/
def digitsOf (s : String) : String :=
  String.mk (s.data.filter Char.isDigit)

/-- JS `s.startsWith(c)` for a single-character pattern: the first character. -/
def headIs (c : Char) (s : String) : Bool :=
  match s.data with
  | [] => false
  | a :: _ => a = c

/-- `startsWithList l p` is true when `p` is an initial segment of `l`. -/
def startsWithList : List Char → List Char → Bool
  | _, [] => true
  | [], _ :: _ => false
  | a :: as, b :: bs => a = b && startsWithList as bs

/-- Substring search on character lists. -/
def containsSub : List Char → List Char → Bool
  | [], pat => pat.isEmpty
  | a :: rest, pat => startsWithList (a :: rest) pat || containsSub rest pat

/-- JS `s.includes(pat)`. -/
def containsSubstring (s pat : String) : Bool :=
  containsSub s.data pat.data

/-! ## formatPhoneNumber (combined-scraper.js lines 19-47) -/

/-- `formatPhoneNumber(phoneNumber)`.

The JS guard `!phoneNumber || phoneNumber.trim() === ''` holds exactly when
every character of the string is whitespace (trim removes whitespace from both
ends, so the trimmed string is empty iff nothing but whitespace was present),
which is how the guard is rendered here. -/
def formatPhoneNumber (phoneNumber : String) : String :=
  if phoneNumber.data.all Char.isWhitespace then ""
  else
    let digits := digitsOf phoneNumber
    if digits.length = 10 then
      "+1" ++ digits
    else if digits.length = 11 && headIs '1' digits then
      "+" ++ digits
    else if digits.length = 11 && !headIs '1' digits then
      "+" ++ digits
    else if digits.length > 11 then
      "+" ++ digits
    else if digits.length = 7 then
      "+1" ++ digits
    else if headIs '+' phoneNumber then phoneNumber
    else "+" ++ digits

/-! ## Data model -/

/-- The extracted business record, keys of the object returned by
`extractBusinessDetails`.  The success path of the source does not set the
Email/Instagram/LinkedIn/Facebook keys; an absent key and the empty string are
interchangeable downstream (`details['Email'] || ''`), so absence is modelled
as `""`. -/
structure Details where
  businessName : String
  companyType : String
  rating : String
  reviews : String
  address : String
  phoneNumber : String
  website : String
  email : String
  instagram : String
  linkedin : String
  facebook : String
  url : String
deriving Repr, DecidableEq

/-- A row of the `business_results` table as built by `mapToSupabaseColumns`
(plus the `search_session_id` key optionally added at line 529). -/
structure SupaRow where
  business_name : String
  company_type : String
  rating : String
  reviews : String
  address : String
  phone_number : String
  website : String
  url : String
  email : String
  instagram : String
  linkedin : String
  facebook : String
  search_session_id : Option Nat
deriving Repr, DecidableEq

/-- `mapToSupabaseColumns(details)` (lines 68-83).  Every field is
`details[key] || ''`; since `Details` models absent keys as `""` already,
this is a field-by-field copy. -/
def mapToSupabaseColumns (d : Details) : SupaRow :=
  { business_name := d.businessName
    company_type := d.companyType
    rating := d.rating
    reviews := d.reviews
    address := d.address
    phone_number := d.phoneNumber
    website := d.website
    url := d.url
    email := d.email
    instagram := d.instagram
    linkedin := d.linkedin
    facebook := d.facebook
    search_session_id := none }

/-- `if (sessionId) mappedDetails['search_session_id'] = sessionId;`
(line 529).  JS truthiness: `null` and `0` both skip the assignment. -/
def withSession (sessionId : Option Nat) (r : SupaRow) : SupaRow :=
  match sessionId with
  | some sid => if sid = 0 then r else { r with search_session_id := some sid }
  | none => r

/-! ## insertWithRetry (lines 85-115) -/

/-- Outcome of one `supabase.from('business_results').insert([data]).select()`
call: either an error object carrying a message, or success returning the
inserted rows (the source checks `insertedData.length > 0`). -/
inductive AttemptResult
  | insertedRows (n : Nat)
  | storeError (msg : String)
deriving Repr, DecidableEq

/-- The substring tested by
`error.message.includes('duplicate key value violates unique constraint')`. -/
def dupConstraintText : String := "duplicate key value violates unique constraint"

/-- The retry loop body of `insertWithRetry`: `attempt` counts up from 1 to
`maxRetries`; a duplicate-key error returns `true` (duplicate-as-success), any
other error retries until `attempt === maxRetries` where it returns `false`;
a successful insert returning no rows gives `false`. `fuel` is the number of
remaining iterations (`maxRetries - attempt + 1` at every call). -/
def insertAttemptsLoop (attempts : Nat → AttemptResult) (maxRetries : Nat) :
    Nat → Nat → Bool
  | 0, _ => false
  | fuel + 1, attempt =>
    if attempt ≤ maxRetries then
      match attempts attempt with
      | .storeError msg =>
        if containsSubstring msg dupConstraintText then true
        else if attempt = maxRetries then false
        else insertAttemptsLoop attempts maxRetries fuel (attempt + 1)
      | .insertedRows n =>
        if n > 0 then true else false
    else false

/-- `insertWithRetry(data, maxRetries = 3)`: the store's response to each
attempt is given by the oracle `attempts`. -/
def insertWithRetry (attempts : Nat → AttemptResult) (maxRetries : Nat := 3) : Bool :=
  insertAttemptsLoop attempts maxRetries maxRetries 1

/-! ## The main-loop state of scrapeUrlsAndDetails (lines 419-603)

The local mutable variables of the function, plus explicit logs of the
observable side effects: `progressEvents` records every `progressCb(percent,
[...results])` invocation, `extractLog` every URL navigated to for detail
extraction (lines 514-518), and `insertLog` every row handed to
`insertWithRetry` (line 531). -/

structure LoopSt where
  results : List Details
  newFound : Nat
  processedUrls : List String
  duplicatesSkipped : Nat
  currentUpdatedIndex : Nat
  scrollAttempts : Nat
  allCards : List (Option String)
  progressEvents : List (Nat × List Details)
  extractLog : List String
  insertLog : List SupaRow
deriving Repr, DecidableEq

/-- Initial state (lines 421-427; `allCards = []` at line 453). -/
def initSt (updatedIndex : Nat) : LoopSt :=
  { results := []
    newFound := 0
    processedUrls := []
    duplicatesSkipped := 0
    currentUpdatedIndex := updatedIndex
    scrollAttempts := 0
    allCards := []
    progressEvents := []
    extractLog := []
    insertLog := [] }

/-- Outcome of processing one candidate URL (the try block, lines 510-549):
either the field values read by `extractBusinessDetails` (its internal catch
already yields all-empty fields rather than throwing), or a fault thrown
during navigation, which the per-candidate catch (line 550) recovers from. -/
inductive ProcOutcome
  | ok (businessName companyType rating reviews address phoneNumber website : String)
  | fault
deriving Repr, DecidableEq

/-- Environment of `scrapeUrlsAndDetails`: the page-automation substrate and
the durable store, as oracles.

* `initialNavFault`: the initial `goto`/`waitForSelector` (lines 438-441) throws;
* `scrollableFound`: `this.page.$('div[role="feed"]')` finds the container;
* `cards s`: the card list read by `page.$$('a.hfpxzc')` after `s` scrolls have
  been performed; an entry is `none` when `getAttribute('href')` throws for it
  (the catch at line 498), otherwise `some url`;
* `scrollFault s`: the scroll performed when `scrollAttempts = s` throws
  (`scrollable.evaluate`, a fault that escapes to the run boundary);
* `extract url`: result of navigating to `url` and extracting details;
* `insertAttempt row k`: the store's response to the `k`-th insert attempt
  for `row`. -/
structure ScrapeEnv where
  initialNavFault : Bool
  scrollableFound : Bool
  cards : Nat → List (Option String)
  scrollFault : Nat → Bool
  extract : String → ProcOutcome
  insertAttempt : SupaRow → Nat → AttemptResult

/-- `maxScrollAttempts` (line 455). -/
def maxScrollAttempts : Nat := 50

/-- `Math.round((newFound / targetResults) * 100)` for non-negative values:
`floor(100*k/t + 1/2) = (200*k + t) / (2*t)` in integer arithmetic.  (For
`t = 0` the JS expression is NaN, but the loop guard `newFound < targetResults`
keeps that case unreachable.) -/
def jsRound100 (k target : Nat) : Nat :=
  (200 * k + target) / (2 * target)

/-- `const targetResults = desiredNewResults || maxResults;` (line 434).
JS falsiness: both `null` and `0` select `maxResults`. -/
def targetOf (maxResults : Nat) (desired : Option Nat) : Nat :=
  match desired with
  | some n => if n = 0 then maxResults else n
  | none => maxResults

/-- `extractBusinessDetails` result object (lines 720-729) for a candidate:
the URL key is always the navigated URL, the phone number has been passed
through `formatPhoneNumber` (line 718), and the contact-info keys are absent
(modelled `""`). -/
def extractedDetails (businessName companyType rating reviews address
    phoneNumber website url : String) : Details :=
  { businessName := businessName
    companyType := companyType
    rating := rating
    reviews := reviews
    address := address
    phoneNumber := formatPhoneNumber phoneNumber
    website := website
    email := ""
    instagram := ""
    linkedin := ""
    facebook := ""
    url := url }

/-- Processing of a single entry of `urlsToProcess` (the loop body,
lines 508-565): navigate, extract, validate the three required fields,
insert with retry, on success append to results / bump `newFound` / fire the
progress callback; in every case `currentUpdatedIndex` advances to
`index + 1`.  A thrown fault is answered by the catch at line 550 (recovery
navigation has no model-visible effect) and also advances the index. -/
def processOne (env : ScrapeEnv) (target : Nat) (sessionId : Option Nat)
    (c : String × Nat) (st : LoopSt) : LoopSt :=
  let url := c.1
  let index := c.2
  let st := { st with extractLog := st.extractLog ++ [url] }
  match env.extract url with
  | .fault => { st with currentUpdatedIndex := index + 1 }
  | .ok businessName companyType rating reviews address phoneNumber website =>
    let details := extractedDetails businessName companyType rating reviews
      address phoneNumber website url
    if details.businessName = "" ∨ details.address = "" ∨ details.phoneNumber = "" then
      { st with currentUpdatedIndex := index + 1 }
    else
      let row := withSession sessionId (mapToSupabaseColumns details)
      let st := { st with insertLog := st.insertLog ++ [row] }
      let insertSuccess := insertWithRetry (env.insertAttempt row) 3
      let st :=
        if insertSuccess then
          { st with
            results := st.results ++ [details]
            newFound := st.newFound + 1
            progressEvents := st.progressEvents ++
              [(jsRound100 (st.newFound + 1) target, st.results ++ [details])] }
        else st
      { st with currentUpdatedIndex := index + 1 }

/-- `for (let i = 0; i < urlsToProcess.length && newFound < targetResults; i++)`
(line 507). -/
def processUrls (env : ScrapeEnv) (target : Nat) (sessionId : Option Nat) :
    List (String × Nat) → LoopSt → LoopSt
  | [], st => st
  | c :: rest, st =>
    if st.newFound < target then
      processUrls env target sessionId rest (processOne env target sessionId c st)
    else st

/-- The URL-collection pass (lines 474-502): walk the cards from
`currentUpdatedIndex`, skip read errors, count already-known URLs into
`duplicatesSkipped`, record fresh URLs in `processedUrls` and queue them, and
break once `urlsToProcess.length >= targetResults - newFound + 5`. -/
def collectUrls (existing : List String) (cap : Nat) :
    List (Option String × Nat) → List String → Nat → List (String × Nat) →
    List String × Nat × List (String × Nat)
  | [], processed, dups, acc => (processed, dups, acc)
  | (c, i) :: rest, processed, dups, acc =>
    match c with
    | none => collectUrls existing cap rest processed dups acc
    | some url =>
      if url ∈ processed then
        collectUrls existing cap rest processed (dups + 1) acc
      else if url ∈ existing then
        collectUrls existing cap rest processed (dups + 1) acc
      else
        let processed' := url :: processed
        let acc' := acc ++ [(url, i)]
        if cap ≤ acc'.length then (processed', dups, acc')
        else collectUrls existing cap rest processed' dups acc'

/-- Pair each element with its position, starting at `n`: the index `i` of the
card-walking loop. -/
def enumFromIdx (n : Nat) : List α → List (α × Nat)
  | [] => []
  | a :: as => (a, n) :: enumFromIdx (n + 1) as

/-- The inner scroll loop (lines 463-468): scroll, re-read the cards, bump
`scrollAttempts`, until enough cards are buffered or the attempt budget is
reached.  A throwing scroll escapes to the run boundary (`Except.error`
carries the state the catch at line 592 observes).  `fuel` equals
`maxScrollAttempts - scrollAttempts` at every call, so exhaustion coincides
with the guard turning false. -/
def scrollLoop (env : ScrapeEnv) (target buffer : Nat) :
    Nat → LoopSt → Except LoopSt LoopSt
  | 0, st => .ok st
  | fuel + 1, st =>
    if st.allCards.length < st.currentUpdatedIndex + target + buffer ∧
        st.scrollAttempts < maxScrollAttempts then
      if env.scrollFault st.scrollAttempts then .error st
      else
        scrollLoop env target buffer fuel
          { st with
            scrollAttempts := st.scrollAttempts + 1
            allCards := env.cards (st.scrollAttempts + 1) }
    else .ok st

/-- Lines 458-469: if not enough cards are buffered, re-read the card list and
run the scroll loop. -/
def loadCards (env : ScrapeEnv) (target buffer : Nat) (st : LoopSt) :
    Except LoopSt LoopSt :=
  if st.allCards.length < st.currentUpdatedIndex + target + buffer then
    scrollLoop env target buffer (maxScrollAttempts - st.scrollAttempts)
      { st with allCards := env.cards st.scrollAttempts }
  else .ok st

/-- One outer `while (newFound < targetResults && scrollAttempts <
maxScrollAttempts)` iteration (lines 457-573), driven by fuel.  In the model
the card list is a function of the scroll count alone, so consecutive
iterations cannot both leave `scrollAttempts` unchanged; `2*maxScrollAttempts
+ 2` iterations therefore always suffice, and on fuel exhaustion the loop
exits with the current state exactly as when its guard turns false. -/
def mainLoop (env : ScrapeEnv) (target buffer : Nat) (existing : List String)
    (sessionId : Option Nat) : Nat → LoopSt → Except LoopSt LoopSt
  | 0, st => .ok st
  | fuel + 1, st =>
    if st.newFound < target ∧ st.scrollAttempts < maxScrollAttempts then do
      let st ← loadCards env target buffer st
      let pairs := enumFromIdx st.currentUpdatedIndex
        (st.allCards.drop st.currentUpdatedIndex)
      let out := collectUrls existing (target - st.newFound + 5) pairs
        st.processedUrls st.duplicatesSkipped []
      let st := { st with processedUrls := out.1, duplicatesSkipped := out.2.1 }
      let st := processUrls env target sessionId out.2.2 st
      let st :=
        if st.newFound < target then
          { st with currentUpdatedIndex := st.allCards.length }
        else st
      mainLoop env target buffer existing sessionId fuel st
    else .ok st

/-- Fuel for the outer loop; see `mainLoop`. -/
def mainFuel : Nat := 2 * maxScrollAttempts + 2

/-- The whole body of `scrapeUrlsAndDetails` up to its return paths.
`Except.error st` is a fault escaping the main loop with partial state `st`
(caught at the run boundary, line 592); `Except.ok st` is a normal exit,
including the early `return { newFound: 0, ... }` when the scrollable
container is missing (lines 444-448). -/
def scrapeExec (env : ScrapeEnv) (maxResults updatedIndex : Nat)
    (sessionId : Option Nat) (desired : Option Nat) (buffer : Nat)
    (existing : List String) : Except LoopSt LoopSt :=
  let target := targetOf maxResults desired
  if env.initialNavFault then .error (initSt updatedIndex)
  else if env.scrollableFound = false then .ok (initSt updatedIndex)
  else mainLoop env target buffer existing sessionId mainFuel (initSt updatedIndex)

/-- The `{ newFound, updatedIndex, results }` object. -/
structure ScrapeResult where
  newFound : Nat
  updatedIndex : Nat
  results : List Details
deriving Repr, DecidableEq

/-- `scrapeUrlsAndDetails(...)` (lines 419-603): on a normal exit the result
list is trimmed to the target if it overshot (line 582) and `newFound` is
reported as `results.length` (line 586); a fault caught at the run boundary
returns the partial state untrimmed (lines 592-601). -/
def scrapeUrlsAndDetails (env : ScrapeEnv) (maxResults updatedIndex : Nat)
    (sessionId : Option Nat) (desired : Option Nat) (buffer : Nat)
    (existing : List String) : ScrapeResult :=
  let target := targetOf maxResults desired
  match scrapeExec env maxResults updatedIndex sessionId desired buffer existing with
  | .ok st =>
    let results := if st.results.length > target then st.results.take target else st.results
    { newFound := results.length
      updatedIndex := st.currentUpdatedIndex
      results := results }
  | .error st =>
    { newFound := st.results.length
      updatedIndex := st.currentUpdatedIndex
      results := st.results }

/-- The final state of the run's local variables, whichever exit path was
taken: carries the side-effect logs a caller observed. -/
def stOf (e : Except LoopSt LoopSt) : LoopSt :=
  match e with
  | .ok st => st
  | .error st => st

/-- The loop state observed at function exit. -/
def scrapeRunLog (env : ScrapeEnv) (maxResults updatedIndex : Nat)
    (sessionId : Option Nat) (desired : Option Nat) (buffer : Nat)
    (existing : List String) : LoopSt :=
  stOf (scrapeExec env maxResults updatedIndex sessionId desired buffer existing)

/-! ## scrapeUrls (lines 351-417)

The URL-only candidate source.  Its scroll loop mixes card growth with two
substrate signals — the "You've reached the end of the list." text and a
wall-clock stall window (`Date.now() - lastNewCardTime > 10000`) — which are
modelled as per-iteration oracles. -/

/-- A card as seen by `scrapeUrls`'s extraction loop: the sponsored-ancestor
heuristic verdict together with the `href`, or a thrown error (the catch at
line 411). -/
inductive UrlCard
  | ok (sponsored : Bool) (url : String)
  | err
deriving Repr, DecidableEq

/-- Environment for `scrapeUrls`. `cardsAt n` is the card list after `n`
scroll iterations; `endAt n` the end-of-list text check and `stallAt n` the
10-second stall check during iteration `n`. -/
structure UrlsEnv where
  scrollableFound : Bool
  cardsAt : Nat → List UrlCard
  endAt : Nat → Bool
  stallAt : Nat → Bool

/-- The scroll loop of `scrapeUrls` (lines 370-383): scroll, re-read cards,
break on the stall window, read the end-of-list flag, bump `scrollTries`;
guard `!endOfList && scrollTries < 100 && cards.length < 200`.  `fuel` equals
`100 - scrollTries` at each call. -/
def urlsScroll (env : UrlsEnv) : Nat → Nat → Bool → List UrlCard → List UrlCard
  | 0, _, _, cards => cards
  | fuel + 1, tries, endOfList, cards =>
    if endOfList = false ∧ tries < 100 ∧ cards.length < 200 then
      let cards' := env.cardsAt (tries + 1)
      if env.stallAt (tries + 1) then cards'
      else urlsScroll env fuel (tries + 1) (env.endAt (tries + 1)) cards'
    else cards

/-- The URL-extraction loop of `scrapeUrls` (lines 389-415): skip sponsored
cards and cards whose read throws, collect the rest. -/
def extractUrlsFrom : List UrlCard → List String
  | [] => []
  | .err :: rest => extractUrlsFrom rest
  | .ok sponsored url :: rest =>
    if sponsored then extractUrlsFrom rest else url :: extractUrlsFrom rest

/-- `scrapeUrls(searchTerm, location, maxResults, progressCb, updatedIndex)`:
if the scrollable container is missing, return `[]` at once (lines 359-363);
otherwise scroll, slice `[updatedIndex, updatedIndex + maxResults)` (JS
`slice(start, end)`; `maxResults = 0` is falsy so the end bound is then the
whole list), and extract the hrefs. -/
def scrapeUrls (env : UrlsEnv) (maxResults updatedIndex : Nat) : List String :=
  if env.scrollableFound = false then []
  else
    let cards := urlsScroll env 100 0 false (env.cardsAt 0)
    let endIndex :=
      if maxResults = 0 then cards.length
      else min (updatedIndex + maxResults) cards.length
    extractUrlsFrom ((cards.take endIndex).drop updatedIndex)

/-! ## scrapeAndEnrich (lines 1151-1307) -/

/-- A row of the `business_results` table as returned by the step-5 correction
query (lines 1257-1278). -/
structure DbRow where
  business_name : String
  company_type : String
  rating : String
  reviews : String
  address : String
  phone_number : String
  website : String
  email : String
  instagram : String
  linkedin : String
  facebook : String
  url : String
deriving Repr, DecidableEq

/-- The mapping of a database row back to scraper format (lines 1265-1278). -/
def dbRowToDetails (r : DbRow) : Details :=
  { businessName := r.business_name
    companyType := r.company_type
    rating := r.rating
    reviews := r.reviews
    address := r.address
    phoneNumber := r.phone_number
    website := r.website
    email := r.email
    instagram := r.instagram
    linkedin := r.linkedin
    facebook := r.facebook
    url := r.url }

/-- Environment of `scrapeAndEnrich`:
* `scrape`: the environment of the inner `scrapeUrlsAndDetails` run;
* `permanentUrls`: response of the `business_results` url query in
  `getPermanentSearchProgress` (lines 152-176), `none` on a query error;
* `sessionId`: id of the session row created at lines 1164-1183 (`none` when
  creation failed or returned nothing);
* `correctionRows`: response of the step-5 query for up to `maxResults`
  most-recently-created `business_results` rows, newest first
  (lines 1257-1261), `none` on a query error. -/
structure EnrichEnv where
  scrape : ScrapeEnv
  permanentUrls : Option (List String)
  sessionId : Option Nat
  correctionRows : Option (List DbRow)

/-- `getPermanentSearchProgress` (lines 152-176): on a query error, or when no
rows exist, resume from zero with no known URLs; otherwise `updatedIndex` and
`lastRetrievedCount` are the row count and `existingUrls` the url set.
Returns `(updatedIndex, lastRetrievedCount, existingUrls)`. -/
def getPermanentSearchProgress (permanentUrls : Option (List String)) :
    Nat × Nat × List String :=
  match permanentUrls with
  | none => (0, 0, [])
  | some urls =>
    if urls.length > 0 then (urls.length, urls.length, urls) else (0, 0, [])

/-- The resume index `scrapeAndEnrich` derives from permanent progress. -/
def enrichUpdatedIndex (env : EnrichEnv) : Nat :=
  (getPermanentSearchProgress env.permanentUrls).1

/-- The durably-known URL set loaded at run start. -/
def enrichExistingUrls (env : EnrichEnv) : List String :=
  (getPermanentSearchProgress env.permanentUrls).2.2

/-- The step-5 "FINAL CORRECTION" block (lines 1250-1297): when short of
`maxResults`, fetch up to `maxResults` most-recent rows, map them to scraper
format and append the first `maxResults - results.length` of them; when over
target, trim. -/
def correctResults (maxResults : Nat) (rows? : Option (List DbRow))
    (results : List Details) : List Details :=
  if results.length ≠ maxResults then
    if results.length < maxResults then
      match rows? with
      | some rows =>
        let dbResults := rows.map dbRowToDetails
        let needed := maxResults - results.length
        let additional := dbResults.take needed
        if additional.length > 0 then results ++ additional else results
      | none => results
    else results.take maxResults
  else results

/-- `scrapeAndEnrich(searchTerm, location, maxResults, progressCb)`
(lines 1151-1307): load permanent progress, run `scrapeUrlsAndDetails` with
`desiredNewResults = null` and `buffer = 20`, capture `newFound` as the
length of the scraped result list (line 1222), run the final correction, and
return `[]` when the main loop committed nothing (lines 1299-1301).  The
step-4 database verification (lines 1226-1248) only logs and is omitted. -/
def scrapeAndEnrich (env : EnrichEnv) (maxResults : Nat) : List Details :=
  let updatedIndex := enrichUpdatedIndex env
  let existingUrls := enrichExistingUrls env
  let scrapeResult :=
    scrapeUrlsAndDetails env.scrape maxResults updatedIndex env.sessionId
      none 20 existingUrls
  let results := scrapeResult.results
  let newFound := results.length
  let corrected := correctResults maxResults env.correctionRows results
  if newFound = 0 then [] else corrected

/-- The side-effect log of the `scrapeUrlsAndDetails` call made by
`scrapeAndEnrich` (the run's progress-callback, extraction and insert logs). -/
def enrichRunLog (env : EnrichEnv) (maxResults : Nat) : LoopSt :=
  scrapeRunLog env.scrape maxResults (enrichUpdatedIndex env) env.sessionId
    none 20 (enrichExistingUrls env)

/-! ## Helper lemmas -/

lemma isDigit_not_isWhitespace {c : Char} (h : c.isDigit = true) :
    c.isWhitespace = false := by
  revert h
  simp only [Char.isDigit, Char.isWhitespace]
  intro h
  simp only [Bool.and_eq_true, decide_eq_true_eq] at h
  simp only [Bool.or_eq_false_iff, decide_eq_false_iff_not]
  refine ⟨⟨⟨?_, ?_⟩, ?_⟩, ?_⟩ <;> rintro rfl <;> revert h <;> decide

lemma not_all_whitespace_of_digit (s : String) (h : 0 < (digitsOf s).length) :
    s.data.all Char.isWhitespace = false := by
  have hd : 0 < (s.data.filter Char.isDigit).length := h
  rw [List.length_pos] at hd
  obtain ⟨c, hc⟩ := List.exists_mem_of_ne_nil _ hd
  have hmem := List.mem_filter.mp hc
  rw [List.all_eq_false]
  exact ⟨c, hmem.1, by rw [isDigit_not_isWhitespace hmem.2]; decide⟩

/-! ## C5: phone normalization by digit count -/

/-- C5.  For every input string, `formatPhoneNumber` maps it by digit count:
exactly 10 digits gives `+1` followed by the digits; exactly 11 digits
starting with `1` gives `+` followed by the digits; 11 or more digits gives
`+` followed by the digits (already international); exactly 7 digits gives
`+1` followed by the digits.  (Any string with at least 7 digits is non-empty,
so the claim's non-emptiness proviso is implied by each digit-count premise.) -/
theorem formatPhoneNumber_digit_cases (s : String) :
    ((digitsOf s).length = 10 → formatPhoneNumber s = "+1" ++ digitsOf s) ∧
    ((digitsOf s).length = 11 → headIs '1' (digitsOf s) = true →
      formatPhoneNumber s = "+" ++ digitsOf s) ∧
    (11 ≤ (digitsOf s).length → formatPhoneNumber s = "+" ++ digitsOf s) ∧
    ((digitsOf s).length = 7 → formatPhoneNumber s = "+1" ++ digitsOf s) := by
  refine ⟨?_, ?_, ?_, ?_⟩
  · intro h10
    rw [formatPhoneNumber, not_all_whitespace_of_digit s (by omega)]
    simp [h10]
  · intro h11 hstarts
    rw [formatPhoneNumber, not_all_whitespace_of_digit s (by omega)]
    simp [h11, hstarts]
  · intro hge
    rw [formatPhoneNumber, not_all_whitespace_of_digit s (by omega)]
    by_cases h11 : (digitsOf s).length = 11
    · by_cases hh : headIs '1' (digitsOf s) = true
      · simp [h11, hh]
      · simp [h11, hh]
    · have hgt : (digitsOf s).length > 11 := by omega
      simp [h11, hgt, (show ¬ (digitsOf s).length = 10 by omega)]
  · intro h7
    rw [formatPhoneNumber, not_all_whitespace_of_digit s (by omega)]
    simp [h7]

/-- Witness for C5 at the source's own example `808 969-3899`. -/
theorem formatPhoneNumber_digit_cases_witness :
    (digitsOf "808 969-3899").length = 10 ∧
      formatPhoneNumber "808 969-3899" = "+1" ++ digitsOf "808 969-3899" :=
  ⟨by decide, (formatPhoneNumber_digit_cases "808 969-3899").1 (by decide)⟩

/-! ## C8: missing scrollable container -/

/-- C8.  When the scrollable results container cannot be located, the
candidate source returns an immediately-exhausted empty result — zero new
records, empty list, cursor unchanged — instead of raising: this covers both
`scrapeUrlsAndDetails` (lines 444-448) and `scrapeUrls` (lines 359-363). -/
theorem missing_container_exhausts (env : ScrapeEnv) (uenv : UrlsEnv)
    (maxResults updatedIndex mr ui : Nat) (sessionId desired : Option Nat)
    (buffer : Nat) (existing : List String)
    (hs : env.scrollableFound = false) (hn : env.initialNavFault = false)
    (hu : uenv.scrollableFound = false) :
    scrapeUrlsAndDetails env maxResults updatedIndex sessionId desired buffer
        existing = ⟨0, updatedIndex, []⟩ ∧
      scrapeUrls uenv mr ui = [] := by
  constructor
  · simp [scrapeUrlsAndDetails, scrapeExec, hs, hn, initSt]
  · simp [scrapeUrls, hu]

/-- An environment whose page has no `div[role="feed"]` container. -/
def noContainerEnv : ScrapeEnv :=
  { initialNavFault := false
    scrollableFound := false
    cards := fun _ => []
    scrollFault := fun _ => false
    extract := fun _ => .fault
    insertAttempt := fun _ _ => .insertedRows 1 }

/-- Likewise for the `scrapeUrls` substrate. -/
def noContainerUrlsEnv : UrlsEnv :=
  { scrollableFound := false
    cardsAt := fun _ => []
    endAt := fun _ => false
    stallAt := fun _ => false }

/-- Witness for C8 at a concrete environment and cursor 3. -/
theorem missing_container_exhausts_witness :
    scrapeUrlsAndDetails noContainerEnv 5 3 none none 20 [] = ⟨0, 3, []⟩ ∧
      scrapeUrls noContainerUrlsEnv 5 3 = [] :=
  missing_container_exhausts noContainerEnv noContainerUrlsEnv 5 3 5 3 none none
    20 [] rfl rfl rfl

/-! ## C6: run-boundary fault containment -/

/-- C6.  Every fault that escapes the main extraction loop (an
`Except.error st` outcome of the body) is caught at the run boundary
(line 592) and the run returns the partial result list accumulated so far,
together with its cursor.  `scrapeUrlsAndDetails` is a total function into
`ScrapeResult`, so the run always returns a list and never propagates a fault
to its caller. -/
theorem run_boundary_returns_partial (env : ScrapeEnv)
    (maxResults updatedIndex : Nat) (sessionId desired : Option Nat)
    (buffer : Nat) (existing : List String) (st : LoopSt)
    (h : scrapeExec env maxResults updatedIndex sessionId desired buffer
        existing = .error st) :
    scrapeUrlsAndDetails env maxResults updatedIndex sessionId desired buffer
      existing =
      { newFound := st.results.length
        updatedIndex := st.currentUpdatedIndex
        results := st.results } := by
  rw [scrapeUrlsAndDetails, h]

/-- An environment whose every scroll throws (e.g. the page context was
destroyed), so the fault escapes the scroll loop to the run boundary. -/
def scrollFaultEnv : ScrapeEnv :=
  { initialNavFault := false
    scrollableFound := true
    cards := fun _ => []
    scrollFault := fun _ => true
    extract := fun _ => .fault
    insertAttempt := fun _ _ => .insertedRows 1 }

/-- Witness for C6: the first scroll of this run throws, and the run still
returns the (here empty) partial state rather than a fault. -/
theorem run_boundary_returns_partial_witness :
    scrapeExec scrollFaultEnv 5 0 none none 20 [] = .error (initSt 0) ∧
      scrapeUrlsAndDetails scrollFaultEnv 5 0 none none 20 [] =
        { newFound := (initSt 0).results.length
          updatedIndex := (initSt 0).currentUpdatedIndex
          results := (initSt 0).results } :=
  ⟨rfl,
    run_boundary_returns_partial scrollFaultEnv 5 0 none none 20 [] (initSt 0)
      rfl⟩

/-! ## C10: zero-new-commit override -/

/-- C10.  `newFound` is captured from the scraped result-list length before
the step-5 top-up runs (line 1222), so a run whose main loop committed zero
new records returns `[]` (lines 1299-1301) even when the correction step
appended database rows to the in-memory list. -/
theorem zero_new_commit_returns_empty (env : EnrichEnv) (maxResults : Nat)
    (h : (scrapeUrlsAndDetails env.scrape maxResults (enrichUpdatedIndex env)
        env.sessionId none 20 (enrichExistingUrls env)).results = []) :
    scrapeAndEnrich env maxResults = [] := by
  rw [scrapeAndEnrich]
  simp [h]

/-- A stored row available to the top-up query. -/
def dbRowOnly : DbRow :=
  { business_name := "Stored", company_type := "", rating := "", reviews := ""
    address := "Somewhere", phone_number := "+15550000", website := ""
    email := "", instagram := "", linkedin := "", facebook := "", url := "S" }

/-- A run that finds no candidates but whose store could top up one row. -/
def zeroCommitEnv : EnrichEnv :=
  { scrape := noContainerEnv
    permanentUrls := some []
    sessionId := none
    correctionRows := some [dbRowOnly] }

/-- Witness for C10: the loop commits nothing, the top-up alone would have
produced a non-empty list, and the run still returns `[]`. -/
theorem zero_new_commit_returns_empty_witness :
    (scrapeUrlsAndDetails zeroCommitEnv.scrape 3 (enrichUpdatedIndex zeroCommitEnv)
        zeroCommitEnv.sessionId none 20 (enrichExistingUrls zeroCommitEnv)).results = [] ∧
      correctResults 3 zeroCommitEnv.correctionRows [] ≠ [] ∧
      scrapeAndEnrich zeroCommitEnv 3 = [] :=
  ⟨by decide, by decide, zero_new_commit_returns_empty zeroCommitEnv 3 (by decide)⟩

/-! ## C2: duplicate-as-success -/

/-- A first-attempt uniqueness-constraint violation makes `insertWithRetry`
report success (lines 89-93). -/
lemma insertWithRetry_dupError (attempts : Nat → AttemptResult) (m : String)
    (h1 : attempts 1 = .storeError m)
    (hm : containsSubstring m dupConstraintText = true) :
    insertWithRetry attempts 3 = true := by
  simp [insertWithRetry, insertAttemptsLoop, h1, hm]

/-- A first-attempt insert that returns rows makes `insertWithRetry` report
success (lines 97-99). -/
lemma insertWithRetry_inserted (attempts : Nat → AttemptResult) (n : Nat)
    (h1 : attempts 1 = .insertedRows n) (hn : 0 < n) :
    insertWithRetry attempts 3 = true := by
  simp [insertWithRetry, insertAttemptsLoop, h1, hn]

/-- C2.  For a record whose store insertion reports a uniqueness-constraint
violation, the candidate step behaves exactly as if the insert had succeeded:
the whole state transition is identical to the successful-insert one (so
committed-this-run increments by exactly one), and the record is appended to
the in-memory result list exactly once — not a second time. -/
theorem duplicate_as_success (env : ScrapeEnv) (target : Nat)
    (sessionId : Option Nat) (url : String) (i : Nat) (st : LoopSt)
    (bn ct rt rv ad ph wb m : String)
    (A B : SupaRow → Nat → AttemptResult)
    (hx : env.extract url = .ok bn ct rt rv ad ph wb)
    (hv : ¬((extractedDetails bn ct rt rv ad ph wb url).businessName = "" ∨
        (extractedDetails bn ct rt rv ad ph wb url).address = "" ∨
        (extractedDetails bn ct rt rv ad ph wb url).phoneNumber = ""))
    (hA : A (withSession sessionId (mapToSupabaseColumns
        (extractedDetails bn ct rt rv ad ph wb url))) 1 = .storeError m)
    (hm : containsSubstring m dupConstraintText = true)
    (hB : B (withSession sessionId (mapToSupabaseColumns
        (extractedDetails bn ct rt rv ad ph wb url))) 1 = .insertedRows 1) :
    processOne { env with insertAttempt := A } target sessionId (url, i) st =
        processOne { env with insertAttempt := B } target sessionId (url, i) st ∧
      (processOne { env with insertAttempt := A } target sessionId (url, i)
          st).newFound = st.newFound + 1 ∧
      (processOne { env with insertAttempt := A } target sessionId (url, i)
          st).results =
        st.results ++ [extractedDetails bn ct rt rv ad ph wb url] := by
  have hra := insertWithRetry_dupError _ m hA hm
  have hrb := insertWithRetry_inserted _ 1 hB (by omega)
  refine ⟨?_, ?_, ?_⟩ <;>
    simp only [processOne, hx, if_neg hv, hra, hrb, if_true]

/-- A realistic Supabase duplicate-key error message. -/
def c2Msg : String :=
  "insert or update violates: duplicate key value violates unique constraint"

/-- Base environment for the C2 witness. -/
def c2BaseEnv : ScrapeEnv :=
  { initialNavFault := false
    scrollableFound := true
    cards := fun _ => [some "U"]
    scrollFault := fun _ => false
    extract := fun _ => .ok "Name" "" "" "" "Addr" "5551234" ""
    insertAttempt := fun _ _ => .insertedRows 1 }

/-- A store that always answers with the duplicate-key error. -/
def c2DupAttempts : SupaRow → Nat → AttemptResult := fun _ _ => .storeError c2Msg

/-- A store that always inserts successfully. -/
def c2OkAttempts : SupaRow → Nat → AttemptResult := fun _ _ => .insertedRows 1

/-- Witness for C2 at a concrete record and store responses. -/
theorem duplicate_as_success_witness :
    processOne { c2BaseEnv with insertAttempt := c2DupAttempts } 5 none ("U", 0)
        (initSt 0) =
      processOne { c2BaseEnv with insertAttempt := c2OkAttempts } 5 none ("U", 0)
        (initSt 0) ∧
    (processOne { c2BaseEnv with insertAttempt := c2DupAttempts } 5 none ("U", 0)
        (initSt 0)).newFound = (initSt 0).newFound + 1 ∧
    (processOne { c2BaseEnv with insertAttempt := c2DupAttempts } 5 none ("U", 0)
        (initSt 0)).results =
      (initSt 0).results ++ [extractedDetails "Name" "" "" "" "Addr" "5551234" "" "U"] :=
  duplicate_as_success c2BaseEnv 5 none "U" 0 (initSt 0) "Name" "" "" "" "Addr"
    "5551234" "" c2Msg c2DupAttempts c2OkAttempts rfl (by decide) rfl (by decide) rfl

/-! ## Invariant machinery for the main loop -/

/-- The fields of `LoopSt` that the scroll steps never touch: every loop
invariant below is a predicate on this projection. -/
structure Core where
  results : List Details
  newFound : Nat
  processedUrls : List String
  currentUpdatedIndex : Nat
  progressEvents : List (Nat × List Details)
  extractLog : List String
  insertLog : List SupaRow
deriving DecidableEq

/-- Project the scroll-insensitive fields of a state. -/
def coreOf (st : LoopSt) : Core :=
  { results := st.results
    newFound := st.newFound
    processedUrls := st.processedUrls
    currentUpdatedIndex := st.currentUpdatedIndex
    progressEvents := st.progressEvents
    extractLog := st.extractLog
    insertLog := st.insertLog }

/-- Scrolling (lines 463-468) only changes `scrollAttempts` and `allCards`,
on the fault path too. -/
lemma scrollLoop_core (env : ScrapeEnv) (target buffer : Nat) :
    ∀ fuel st, coreOf (stOf (scrollLoop env target buffer fuel st)) = coreOf st := by
  intro fuel
  induction fuel with
  | zero => intro st; rfl
  | succ n ih =>
    intro st
    rw [scrollLoop]
    split
    · split
      · rfl
      · exact ih _
    · rfl

/-- Re-reading the card list (lines 458-469) only changes `scrollAttempts`
and `allCards`. -/
lemma loadCards_core (env : ScrapeEnv) (target buffer : Nat) (st : LoopSt) :
    coreOf (stOf (loadCards env target buffer st)) = coreOf st := by
  rw [loadCards]
  split
  · exact scrollLoop_core env target buffer _ _
  · rfl

/-- A property preserved by every candidate step is preserved by the whole
processing pass. -/
lemma processUrls_inv (env : ScrapeEnv) (target : Nat) (sessionId : Option Nat)
    (P : LoopSt → Prop)
    (hproc : ∀ c st, P st → P (processOne env target sessionId c st)) :
    ∀ l st, P st → P (processUrls env target sessionId l st) := by
  intro l
  induction l with
  | nil => intro st h; exact h
  | cons c rest ih =>
    intro st h
    rw [processUrls]
    split
    · exact ih _ (hproc c st h)
    · exact h

/-- Induction principle for the outer loop: a core property preserved by the
candidate step, by the URL-collection update and by the cursor jump holds at
every loop exit, the fault exits included. -/
lemma mainLoop_inv (env : ScrapeEnv) (target buffer : Nat)
    (existing : List String) (sessionId : Option Nat) (P : Core → Prop)
    (hproc : ∀ c st, P (coreOf st) → P (coreOf (processOne env target sessionId c st)))
    (hcoll : ∀ st p d, P (coreOf st) →
      P (coreOf { st with processedUrls := p, duplicatesSkipped := d }))
    (hcui : ∀ st n, P (coreOf st) → P (coreOf { st with currentUpdatedIndex := n })) :
    ∀ fuel st, P (coreOf st) →
      P (coreOf (stOf (mainLoop env target buffer existing sessionId fuel st))) := by
  intro fuel
  induction fuel with
  | zero => intro st h; exact h
  | succ n ih =>
    intro st h
    rw [mainLoop]
    split
    · rcases hl : loadCards env target buffer st with st1 | st1
      · have := loadCards_core env target buffer st
        rw [hl] at this
        simpa [Bind.bind, Except.bind, hl] using (show P (coreOf st1) from this ▸ h)
      · have hc1 : P (coreOf st1) := by
          have := loadCards_core env target buffer st
          rw [hl] at this
          exact this ▸ h
        simp only [Bind.bind, Except.bind, hl]
        apply ih
        dsimp only
        split
        · exact hcui _ _ (processUrls_inv env target sessionId
            (fun s => P (coreOf s)) hproc _ _ (hcoll _ _ _ hc1))
        · exact processUrls_inv env target sessionId
            (fun s => P (coreOf s)) hproc _ _ (hcoll _ _ _ hc1)
    · exact h

/-- The loop induction principle lifted to the whole `scrapeUrlsAndDetails`
body, whichever exit path is taken. -/
lemma scrapeExec_inv (env : ScrapeEnv) (maxResults updatedIndex : Nat)
    (sessionId desired : Option Nat) (buffer : Nat) (existing : List String)
    (P : Core → Prop)
    (h0 : P (coreOf (initSt updatedIndex)))
    (hproc : ∀ c st, P (coreOf st) →
      P (coreOf (processOne env (targetOf maxResults desired) sessionId c st)))
    (hcoll : ∀ st p d, P (coreOf st) →
      P (coreOf { st with processedUrls := p, duplicatesSkipped := d }))
    (hcui : ∀ st n, P (coreOf st) → P (coreOf { st with currentUpdatedIndex := n })) :
    P (coreOf (scrapeRunLog env maxResults updatedIndex sessionId desired buffer
      existing)) := by
  rw [scrapeRunLog, scrapeExec]
  split
  · exact h0
  · split
    · exact h0
    · exact mainLoop_inv env _ buffer existing sessionId P hproc hcoll hcui
        mainFuel _ h0

/-- Callback-log invariant: the result-list length tracks `newFound`, and the
progress events are exactly one event per commit, the `k`-th carrying
`Math.round(k/target*100)` and the snapshot of the first `k` results. -/
def eventsOk (target : Nat) (c : Core) : Prop :=
  c.results.length = c.newFound ∧
  c.progressEvents = (List.range c.newFound).map
    (fun k => (jsRound100 (k + 1) target, c.results.take (k + 1)))

/-- The candidate step preserves the callback-log invariant: a committed
record appends exactly one event with the freshly rounded percentage and the
current snapshot. -/
lemma processOne_eventsOk (env : ScrapeEnv) (target : Nat)
    (sessionId : Option Nat) (c : String × Nat) (st : LoopSt)
    (h : eventsOk target (coreOf st)) :
    eventsOk target (coreOf (processOne env target sessionId c st)) := by
  obtain ⟨hlen, hev⟩ := h
  have hlen' : st.results.length = st.newFound := hlen
  have hev' : st.progressEvents = (List.range st.newFound).map
      (fun k => (jsRound100 (k + 1) target, st.results.take (k + 1))) := hev
  rw [processOne]
  split
  · exact ⟨hlen, hev⟩
  · rename_i bn ct rt rv ad ph wb heq
    dsimp only
    split
    · exact ⟨hlen, hev⟩
    · split
      · refine ⟨?_, ?_⟩
        · show (st.results ++ [extractedDetails bn ct rt rv ad ph wb c.1]).length
            = st.newFound + 1
          simp [hlen']
        · show st.progressEvents ++ [(jsRound100 (st.newFound + 1) target,
              st.results ++ [extractedDetails bn ct rt rv ad ph wb c.1])] =
            (List.range (st.newFound + 1)).map (fun k =>
              (jsRound100 (k + 1) target,
                (st.results ++ [extractedDetails bn ct rt rv ad ph wb c.1]).take (k + 1)))
          rw [hev', List.range_succ, List.map_append]
          congr 1
          · apply List.map_congr_left
            intro k hk
            rw [List.mem_range] at hk
            simp only [List.take_append_eq_append_take]
            rw [show k + 1 - st.results.length = 0 by omega, List.take_zero,
              List.append_nil]
          · simp only [List.map_cons, List.map_nil]
            rw [List.take_append_eq_append_take,
              List.take_of_length_le (by omega),
              show st.newFound + 1 - st.results.length = 1 by omega,
              List.take_succ_cons, List.take_zero]
      · exact ⟨hlen, hev⟩

/-- `jsRound100` is monotone in the committed count. -/
lemma jsRound100_mono (t : Nat) {k k' : Nat} (h : k ≤ k') :
    jsRound100 k t ≤ jsRound100 k' t := by
  apply Nat.div_le_div_right
  omega

/-- C9.  In every run, the progress callback is invoked exactly once per
successful commit, the `k`-th invocation carrying percent
`round(k/target*100)` (`jsRound100 k maxResults`) and a snapshot of the
current result list (the first `k` results), and the percent values are
monotonically non-decreasing across the run. -/
theorem progress_callback_percent (env : EnrichEnv) (maxResults : Nat) :
    (enrichRunLog env maxResults).progressEvents =
      (List.range (enrichRunLog env maxResults).newFound).map
        (fun k => (jsRound100 (k + 1) maxResults,
          (enrichRunLog env maxResults).results.take (k + 1))) ∧
    ((enrichRunLog env maxResults).progressEvents.map Prod.fst).Pairwise (· ≤ ·) := by
  have key : eventsOk maxResults (coreOf (enrichRunLog env maxResults)) := by
    apply scrapeExec_inv
    · exact ⟨rfl, rfl⟩
    · exact fun c st h => processOne_eventsOk env.scrape _ env.sessionId c st h
    · exact fun st p d h => h
    · exact fun st n h => h
  obtain ⟨hlen, hev⟩ := key
  have hev' : (enrichRunLog env maxResults).progressEvents =
      (List.range (enrichRunLog env maxResults).newFound).map
        (fun k => (jsRound100 (k + 1) maxResults,
          (enrichRunLog env maxResults).results.take (k + 1))) := hev
  refine ⟨hev', ?_⟩
  rw [hev', List.map_map]
  have : (Prod.fst ∘ fun k => (jsRound100 (k + 1) maxResults,
      (enrichRunLog env maxResults).results.take (k + 1))) =
      fun k => jsRound100 (k + 1) maxResults := rfl
  rw [this]
  refine List.Pairwise.map _ ?_
    ((List.pairwise_lt_range _).imp (fun {a b} h => Nat.le_of_lt h))
  intro a b hab
  exact jsRound100_mono maxResults (by omega)

/-! ## C7: required-field validation -/

/-- Every row handed to the commit pipeline has the three required fields. -/
def insertLogOk (c : Core) : Prop :=
  ∀ r ∈ c.insertLog,
    r.business_name ≠ "" ∧ r.address ≠ "" ∧ r.phone_number ≠ ""

/-- Attaching the session id leaves the required columns unchanged. -/
lemma withSession_fields (sessionId : Option Nat) (r : SupaRow) :
    (withSession sessionId r).business_name = r.business_name ∧
      (withSession sessionId r).address = r.address ∧
      (withSession sessionId r).phone_number = r.phone_number := by
  rcases sessionId with _ | sid
  · exact ⟨rfl, rfl, rfl⟩
  · rw [withSession]
    split <;> exact ⟨rfl, rfl, rfl⟩

/-- The candidate step only appends validated rows to the insert log. -/
lemma processOne_insertLogOk (env : ScrapeEnv) (target : Nat)
    (sessionId : Option Nat) (c : String × Nat) (st : LoopSt)
    (h : insertLogOk (coreOf st)) :
    insertLogOk (coreOf (processOne env target sessionId c st)) := by
  have h' : ∀ r ∈ st.insertLog,
      r.business_name ≠ "" ∧ r.address ≠ "" ∧ r.phone_number ≠ "" := h
  rw [processOne]
  split
  · exact h
  · rename_i bn ct rt rv ad ph wb heq
    dsimp only
    split
    · exact h
    · rename_i hval
      push_neg at hval
      obtain ⟨hbn, had, hph⟩ := hval
      have hrow : ∀ r ∈ st.insertLog ++
          [withSession sessionId (mapToSupabaseColumns
            (extractedDetails bn ct rt rv ad ph wb c.1))],
          r.business_name ≠ "" ∧ r.address ≠ "" ∧ r.phone_number ≠ "" := by
        intro r hr
        rcases List.mem_append.mp hr with hr | hr
        · exact h' r hr
        · rw [List.mem_singleton] at hr
          subst hr
          obtain ⟨e1, e2, e3⟩ := withSession_fields sessionId
            (mapToSupabaseColumns (extractedDetails bn ct rt rv ad ph wb c.1))
          rw [e1, e2, e3]
          exact ⟨hbn, had, hph⟩
      split
      · exact hrow
      · exact hrow

/-- C7.  A record lacking any of the three required fields (name, address,
phone) never reaches the commit pipeline: in every run, every row passed to
`insertWithRetry` has all three required columns non-empty; and a candidate
whose extraction comes back incomplete is skipped without retry — the step
merely logs the navigation and advances the cursor past it, leaving results,
committed count and insert log untouched, and the loop continues. -/
theorem incomplete_record_never_committed (env : EnrichEnv) (maxResults : Nat)
    (senv : ScrapeEnv) (target : Nat) (sid : Option Nat) (url : String)
    (i : Nat) (st : LoopSt) (bn ct rt rv ad ph wb : String)
    (hx : senv.extract url = .ok bn ct rt rv ad ph wb)
    (hinc : (extractedDetails bn ct rt rv ad ph wb url).businessName = "" ∨
      (extractedDetails bn ct rt rv ad ph wb url).address = "" ∨
      (extractedDetails bn ct rt rv ad ph wb url).phoneNumber = "") :
    (∀ r ∈ (enrichRunLog env maxResults).insertLog,
        r.business_name ≠ "" ∧ r.address ≠ "" ∧ r.phone_number ≠ "") ∧
      processOne senv target sid (url, i) st =
        { st with
          extractLog := st.extractLog ++ [url]
          currentUpdatedIndex := i + 1 } := by
  constructor
  · exact scrapeExec_inv env.scrape maxResults (enrichUpdatedIndex env)
      env.sessionId none 20 (enrichExistingUrls env) insertLogOk
      (by intro r hr; exact absurd hr (List.not_mem_nil r))
      (fun c st h => processOne_insertLogOk env.scrape _ env.sessionId c st h)
      (fun st p d h => h) (fun st n h => h)
  · rw [processOne]
    rw [hx]
    dsimp only
    rw [if_pos hinc]

/-- An extractor that returns a record with an empty phone number. -/
def c7IncompleteEnv : ScrapeEnv :=
  { initialNavFault := false
    scrollableFound := true
    cards := fun _ => [some "U"]
    scrollFault := fun _ => false
    extract := fun _ => .ok "Name" "" "" "" "Addr" "" ""
    insertAttempt := fun _ _ => .insertedRows 1 }

/-- Witness for C7 at a concrete run and a concrete incomplete candidate. -/
theorem incomplete_record_never_committed_witness :
    (∀ r ∈ (enrichRunLog zeroCommitEnv 3).insertLog,
        r.business_name ≠ "" ∧ r.address ≠ "" ∧ r.phone_number ≠ "") ∧
      processOne c7IncompleteEnv 5 none ("U", 2) (initSt 0) =
        { initSt 0 with
          extractLog := (initSt 0).extractLog ++ ["U"]
          currentUpdatedIndex := 2 + 1 } :=
  incomplete_record_never_committed zeroCommitEnv 3 c7IncompleteEnv 5 none "U" 2
    (initSt 0) "Name" "" "" "" "Addr" "" "" rfl (by decide)

/-! ## C3: deduplication of the result list / C4: reconciliation top-up -/

/-- What the URL-collection pass guarantees: previously known URLs stay known,
every queued URL gets recorded as processed, the queue has no duplicate URLs,
and every newly queued URL was neither already known nor durably known. -/
lemma collectUrls_spec (existing : List String) (cap : Nat) :
    ∀ (pairs : List (Option String × Nat)) (p : List String) (dups : Nat)
      (acc : List (String × Nat)),
      (∀ q ∈ acc, q.1 ∈ p) → (acc.map Prod.fst).Nodup →
      (∀ u ∈ p, u ∈ (collectUrls existing cap pairs p dups acc).1) ∧
      (∀ q ∈ (collectUrls existing cap pairs p dups acc).2.2,
        q.1 ∈ (collectUrls existing cap pairs p dups acc).1) ∧
      ((collectUrls existing cap pairs p dups acc).2.2.map Prod.fst).Nodup ∧
      (∀ q ∈ (collectUrls existing cap pairs p dups acc).2.2, q ∉ acc →
        q.1 ∉ p ∧ q.1 ∉ existing) := by
  intro pairs
  induction pairs with
  | nil =>
    intro p dups acc hap han
    refine ⟨fun u hu => hu, hap, han, ?_⟩
    intro q hq hnq
    exact absurd hq hnq
  | cons ci rest ih =>
    intro p dups acc hap han
    obtain ⟨c, i⟩ := ci
    rcases c with _ | url
    · exact ih p dups acc hap han
    · rw [collectUrls]
      dsimp only
      by_cases hp : url ∈ p
      · rw [if_pos hp]
        exact ih p (dups + 1) acc hap han
      · rw [if_neg hp]
        by_cases he : url ∈ existing
        · rw [if_pos he]
          exact ih p (dups + 1) acc hap han
        · rw [if_neg he]
          have hap' : ∀ q ∈ acc ++ [(url, i)], q.1 ∈ url :: p := by
            intro q hq
            rcases List.mem_append.mp hq with hq | hq
            · exact List.mem_cons_of_mem _ (hap q hq)
            · rw [List.mem_singleton] at hq
              subst hq
              exact List.mem_cons_self _ _
          have hnotin : url ∉ acc.map Prod.fst := by
            intro hu
            obtain ⟨q, hq, hq1⟩ := List.mem_map.mp hu
            exact hp (hq1 ▸ hap q hq)
          have han' : ((acc ++ [(url, i)]).map Prod.fst).Nodup := by
            rw [List.map_append, List.nodup_append]
            refine ⟨han, List.nodup_singleton _, ?_⟩
            intro u hu hu2
            rw [List.map_singleton, List.mem_singleton] at hu2
            subst hu2
            exact hnotin hu
          by_cases hcap : cap ≤ (acc ++ [(url, i)]).length
          · rw [if_pos hcap]
            refine ⟨?_, hap', han', ?_⟩
            · exact fun u hu => List.mem_cons_of_mem _ hu
            · intro q hq hnq
              rcases List.mem_append.mp hq with hq | hq
              · exact absurd hq hnq
              · rw [List.mem_singleton] at hq
                subst hq
                exact ⟨hp, he⟩
          · rw [if_neg hcap]
            obtain ⟨ih1, ih2, ih3, ih4⟩ :=
              ih (url :: p) dups (acc ++ [(url, i)]) hap' han'
            refine ⟨?_, ih2, ih3, ?_⟩
            · exact fun u hu => ih1 u (List.mem_cons_of_mem _ hu)
            · intro q hq hnq
              by_cases hqa : q ∈ acc ++ [(url, i)]
              · rcases List.mem_append.mp hqa with h2 | h2
                · exact absurd h2 hnq
                · rw [List.mem_singleton] at h2
                  subst h2
                  exact ⟨hp, he⟩
              · obtain ⟨h1, h2⟩ := ih4 q hq hqa
                exact ⟨fun hmem => h1 (List.mem_cons_of_mem _ hmem), h2⟩

/-- Deduplication invariant: the result list's URLs are pairwise distinct, no
durably-known URL was ever navigated to for extraction, and every result's
URL has been recorded in `processedUrls`. -/
def dedupOk (existing : List String) (c : Core) : Prop :=
  (c.results.map Details.url).Nodup ∧
  (∀ u ∈ c.extractLog, u ∉ existing) ∧
  (∀ d ∈ c.results, d.url ∈ c.processedUrls)

/-- The candidate step leaves `processedUrls` alone, logs exactly its URL as
navigated, and appends at most one result, whose URL is the candidate's. -/
lemma processOne_shape (env : ScrapeEnv) (target : Nat) (sid : Option Nat)
    (c : String × Nat) (st : LoopSt) :
    (processOne env target sid c st).processedUrls = st.processedUrls ∧
    (processOne env target sid c st).extractLog = st.extractLog ++ [c.1] ∧
    ((processOne env target sid c st).results = st.results ∨
      ∃ d : Details, d.url = c.1 ∧
        (processOne env target sid c st).results = st.results ++ [d]) := by
  rw [processOne]
  split
  · exact ⟨rfl, rfl, Or.inl rfl⟩
  · rename_i bn ct rt rv ad ph wb heq
    dsimp only
    split
    · exact ⟨rfl, rfl, Or.inl rfl⟩
    · split
      · exact ⟨rfl, rfl, Or.inr ⟨extractedDetails bn ct rt rv ad ph wb c.1,
          rfl, rfl⟩⟩
      · exact ⟨rfl, rfl, Or.inl rfl⟩

/-- Processing a queue of pairwise-distinct, already-recorded, fresh URLs
preserves the deduplication invariant. -/
lemma processUrls_dedup (env : ScrapeEnv) (target : Nat) (sid : Option Nat)
    (existing : List String) :
    ∀ (l : List (String × Nat)) (st : LoopSt),
      dedupOk existing (coreOf st) →
      (l.map Prod.fst).Nodup →
      (∀ q ∈ l, q.1 ∈ st.processedUrls) →
      (∀ q ∈ l, q.1 ∉ existing) →
      (∀ q ∈ l, ∀ d ∈ st.results, d.url ≠ q.1) →
      dedupOk existing (coreOf (processUrls env target sid l st)) := by
  intro l
  induction l with
  | nil => intro st h _ _ _ _; exact h
  | cons q rest ih =>
    intro st h hnodup hproc hex hres
    obtain ⟨hnd, hlog, hsub⟩ := h
    have hnd' : (st.results.map Details.url).Nodup := hnd
    have hlog' : ∀ u ∈ st.extractLog, u ∉ existing := hlog
    have hsub' : ∀ d ∈ st.results, d.url ∈ st.processedUrls := hsub
    have hq1 : q.1 ∉ rest.map Prod.fst := by
      rw [List.map_cons] at hnodup
      exact (List.nodup_cons.mp hnodup).1
    rw [processUrls]
    split
    · obtain ⟨e1, e2, e3⟩ := processOne_shape env target sid q st
      set st1 := processOne env target sid q st with hst1
      have h1 : dedupOk existing (coreOf st1) := by
        refine ⟨?_, ?_, ?_⟩
        · show (st1.results.map Details.url).Nodup
          rcases e3 with e3 | ⟨d, hd, e3⟩
          · rw [e3]; exact hnd'
          · rw [e3, List.map_append, List.nodup_append]
            refine ⟨hnd', by simp, ?_⟩
            intro u hu hu2
            simp only [List.map_singleton, List.mem_singleton] at hu2
            subst hu2
            obtain ⟨d', hd', hd'u⟩ := List.mem_map.mp hu
            exact hres q (List.mem_cons_self _ _) d' hd' (by rw [hd'u, hd])
        · show ∀ u ∈ st1.extractLog, u ∉ existing
          rw [e2]
          intro u hu
          rcases List.mem_append.mp hu with hu | hu
          · exact hlog' u hu
          · rw [List.mem_singleton] at hu
            subst hu
            exact hex q (List.mem_cons_self _ _)
        · show ∀ d ∈ st1.results, d.url ∈ st1.processedUrls
          rw [e1]
          rcases e3 with e3 | ⟨d, hd, e3⟩
          · rw [e3]; exact hsub'
          · rw [e3]
            intro d' hd'
            rcases List.mem_append.mp hd' with hd' | hd'
            · exact hsub' d' hd'
            · rw [List.mem_singleton] at hd'
              subst hd'
              rw [hd]
              exact hproc q (List.mem_cons_self _ _)
      apply ih st1 h1
      · exact (List.nodup_cons.mp (by rw [List.map_cons] at hnodup; exact hnodup)).2
      · intro q' hq'
        rw [e1]
        exact hproc q' (List.mem_cons_of_mem _ hq')
      · intro q' hq'
        exact hex q' (List.mem_cons_of_mem _ hq')
      · intro q' hq' d hd
        rcases e3 with e3 | ⟨d0, hd0, e3⟩
        · rw [e3] at hd
          exact hres q' (List.mem_cons_of_mem _ hq') d hd
        · rw [e3] at hd
          rcases List.mem_append.mp hd with hd | hd
          · exact hres q' (List.mem_cons_of_mem _ hq') d hd
          · rw [List.mem_singleton] at hd
            subst hd
            rw [hd0]
            intro hcontra
            exact hq1 (hcontra ▸ List.mem_map_of_mem Prod.fst hq')
    · exact ⟨hnd, hlog, hsub⟩

/-- The outer loop preserves the deduplication invariant. -/
lemma mainLoop_dedup (env : ScrapeEnv) (target buffer : Nat)
    (existing : List String) (sid : Option Nat) :
    ∀ fuel st, dedupOk existing (coreOf st) →
      dedupOk existing
        (coreOf (stOf (mainLoop env target buffer existing sid fuel st))) := by
  intro fuel
  induction fuel with
  | zero => intro st h; exact h
  | succ n ih =>
    intro st h
    rw [mainLoop]
    split
    · rcases hl : loadCards env target buffer st with st1 | st1 <;>
        have hc := loadCards_core env target buffer st <;> rw [hl] at hc
      · simp only [Bind.bind, Except.bind, hl]
        show dedupOk existing (coreOf st1)
        rw [show coreOf st1 = coreOf st from hc]
        exact h
      · have h1 : dedupOk existing (coreOf st1) := by
          rw [show coreOf st1 = coreOf st from hc]; exact h
        simp only [Bind.bind, Except.bind, hl]
        apply ih
        dsimp only
        obtain ⟨sp1, sp2, sp3, sp4⟩ := collectUrls_spec existing
          (target - st1.newFound + 5)
          (enumFromIdx st1.currentUpdatedIndex
            (st1.allCards.drop st1.currentUpdatedIndex))
          st1.processedUrls st1.duplicatesSkipped []
          (by intro q hq; exact absurd hq (List.not_mem_nil q))
          List.nodup_nil
        obtain ⟨h11, h12, h13⟩ := h1
        have h2 : dedupOk existing (coreOf { st1 with
            processedUrls := (collectUrls existing (target - st1.newFound + 5)
              (enumFromIdx st1.currentUpdatedIndex
                (st1.allCards.drop st1.currentUpdatedIndex))
              st1.processedUrls st1.duplicatesSkipped []).1
            duplicatesSkipped := (collectUrls existing (target - st1.newFound + 5)
              (enumFromIdx st1.currentUpdatedIndex
                (st1.allCards.drop st1.currentUpdatedIndex))
              st1.processedUrls st1.duplicatesSkipped []).2.1 }) := by
          refine ⟨h11, h12, ?_⟩
          intro d hd
          exact sp1 _ (h13 d hd)
        have h3 := processUrls_dedup env target sid existing _ _ h2 sp3
          (by intro q hq; exact sp2 q hq)
          (by intro q hq; exact (sp4 q hq (List.not_mem_nil q)).2)
          (by
            intro q hq d hd
            intro hcontra
            exact (sp4 q hq (List.not_mem_nil q)).1 (hcontra ▸ h13 d hd))
        split
        · exact ⟨h3.1, h3.2.1, h3.2.2⟩
        · exact h3
    · exact h

/-- The deduplication invariant holds at the end of every run's main loop. -/
lemma enrichRun_dedup (env : EnrichEnv) (maxResults : Nat) :
    dedupOk (enrichExistingUrls env) (coreOf (enrichRunLog env maxResults)) := by
  have hinit : dedupOk (enrichExistingUrls env)
      (coreOf (initSt (enrichUpdatedIndex env))) := by
    refine ⟨List.nodup_nil, ?_, ?_⟩
    · intro u hu; exact absurd hu (List.not_mem_nil u)
    · intro d hd; exact absurd hd (List.not_mem_nil d)
  rw [enrichRunLog, scrapeRunLog, scrapeExec]
  split
  · exact hinit
  · split
    · exact hinit
    · exact mainLoop_dedup env.scrape _ 20 (enrichExistingUrls env)
        env.sessionId mainFuel _ hinit

/-- C3 (amended).  Within the main extraction loop, the claim holds: the URLs
of the result list `scrapeUrlsAndDetails` returns are pairwise distinct, and
no identifier in the durably-known set loaded at run start is ever submitted
for extraction.  (As originally stated over the run's *returned* list the
claim is false — the reconciliation top-up of `scrapeAndEnrich` can append a
stored copy of a record already in the list, see the counterexample.) -/
theorem no_duplicate_in_loop (env : EnrichEnv) (maxResults : Nat) :
    ((scrapeUrlsAndDetails env.scrape maxResults (enrichUpdatedIndex env)
        env.sessionId none 20 (enrichExistingUrls env)).results.map
        Details.url).Nodup ∧
      (∀ u ∈ (enrichRunLog env maxResults).extractLog,
        u ∉ enrichExistingUrls env) := by
  have key := enrichRun_dedup env maxResults
  constructor
  · have hlog : ((enrichRunLog env maxResults).results.map Details.url).Nodup :=
      key.1
    rw [enrichRunLog, scrapeRunLog] at hlog
    rw [scrapeUrlsAndDetails]
    rcases hx : scrapeExec env.scrape maxResults (enrichUpdatedIndex env)
        env.sessionId none 20 (enrichExistingUrls env) with st | st
    · rw [hx] at hlog
      exact hlog
    · rw [hx] at hlog
      dsimp only [stOf] at hlog ⊢
      split
      · rw [List.map_take]
        exact hlog.sublist (List.take_sublist _ _)
      · exact hlog
  · exact key.2.1

/-- A source with a single committable candidate `A` for a target of 2. -/
def dupTopUpScrapeEnv : ScrapeEnv :=
  { initialNavFault := false
    scrollableFound := true
    cards := fun _ => [some "A"]
    scrollFault := fun _ => false
    extract := fun _ => .ok "Name" "" "" "" "Addr" "5551234" ""
    insertAttempt := fun _ _ => .insertedRows 1 }

/-- The stored copy of the record scraped from `A` (it was just inserted, so
it is the most recent row). -/
def dbRowA : DbRow :=
  { business_name := "Name", company_type := "", rating := "", reviews := ""
    address := "Addr", phone_number := "+15551234", website := "", email := ""
    instagram := "", linkedin := "", facebook := "", url := "A" }

/-- An older stored record with a different identifier. -/
def dbRowB : DbRow :=
  { business_name := "Other", company_type := "", rating := "", reviews := ""
    address := "Elsewhere", phone_number := "+15559999", website := ""
    email := "", instagram := "", linkedin := "", facebook := "", url := "B" }

/-- A run with target 2 that commits only `A`; the top-up query returns the
stored rows newest-first: `A` then `B`. -/
def dupTopUpEnv : EnrichEnv :=
  { scrape := dupTopUpScrapeEnv
    permanentUrls := some []
    sessionId := none
    correctionRows := some [dbRowA, dbRowB] }

/-- C3 counterexample.  In this run the returned result list is `[A, A]`: its
identifiers are not pairwise distinct, because the reconciliation top-up
re-appends the just-inserted record without checking the in-memory list. -/
theorem no_duplicate_counterexample :
    ¬ (((scrapeAndEnrich dupTopUpEnv 2).map Details.url).Nodup) := by decide

/-- C4 counterexample.  The reconciliation step appends the first `needed`
fetched rows as-is: here it appends the stored copy of `A`, whose identifier
is already present in the in-memory list, and never reaches `B` — whereas the
claim says `A` would be skipped and `B` appended. -/
theorem reconciliation_skip_counterexample :
    (scrapeAndEnrich dupTopUpEnv 2).map Details.url = ["A", "A"] ∧
      dbRowToDetails dbRowB ∉ scrapeAndEnrich dupTopUpEnv 2 :=
  ⟨by decide, by decide⟩

/-- C4 (amended).  When the in-memory list is shorter than the target, the
reconciliation step maps the fetched most-recently-created rows into Record
shape and appends exactly the first `target - |results|` of them — without
skipping rows whose identifier already appears in the in-memory list; when
the store cannot supply enough, the returned list stays short of the target
(its length is `min target (|results| + |rows|)`). -/
theorem reconciliation_appends_without_skipping (maxResults : Nat)
    (rows : List DbRow) (results : List Details)
    (h : results.length < maxResults) :
    correctResults maxResults (some rows) results =
        results ++ (rows.map dbRowToDetails).take (maxResults - results.length) ∧
      (correctResults maxResults (some rows) results).length =
        min maxResults (results.length + rows.length) := by
  have hne : results.length ≠ maxResults := by omega
  have h1 : correctResults maxResults (some rows) results =
      results ++ (rows.map dbRowToDetails).take (maxResults - results.length) := by
    rw [correctResults, if_pos hne, if_pos h]
    dsimp only
    split
    · rfl
    · rename_i hlen
      have h0 : (List.take (maxResults - results.length)
          (List.map dbRowToDetails rows)).length = 0 := by omega
      rw [List.length_eq_zero] at h0
      rw [h0, List.append_nil]
  refine ⟨h1, ?_⟩
  rw [h1, List.length_append, List.length_take, List.length_map]
  omega

/-- Witness for the amended C4 at a concrete shortfall. -/
theorem reconciliation_appends_without_skipping_witness :
    (0 : Nat) < 3 ∧
      correctResults 3 (some [dbRowA, dbRowB]) [] =
        [] ++ ([dbRowA, dbRowB].map dbRowToDetails).take (3 - 0) ∧
      (correctResults 3 (some [dbRowA, dbRowB]) []).length = min 3 (0 + 2) :=
  ⟨by decide, reconciliation_appends_without_skipping 3 [dbRowA, dbRowB] []
    (by decide)⟩

/-! ## C1: exact-count (violated by the code on mixed supply) -/

/-- A candidate URL is *good* when it is extractable (extraction succeeds and
yields the three required fields) and committable (the store accepts the
mapped row within the retry budget). -/
def goodUrl (env : ScrapeEnv) (sid : Option Nat) (url : String) : Prop :=
  ∃ bn ct rt rv ad ph wb,
    env.extract url = .ok bn ct rt rv ad ph wb ∧
    (extractedDetails bn ct rt rv ad ph wb url).businessName ≠ "" ∧
    (extractedDetails bn ct rt rv ad ph wb url).address ≠ "" ∧
    (extractedDetails bn ct rt rv ad ph wb url).phoneNumber ≠ "" ∧
    insertWithRetry (env.insertAttempt (withSession sid
      (mapToSupabaseColumns (extractedDetails bn ct rt rv ad ph wb url)))) 3 = true

/-- Processing a good candidate commits it: committed count and result list
each grow by one. -/
lemma processOne_good (env : ScrapeEnv) (target : Nat) (sid : Option Nat)
    (q : String × Nat) (st : LoopSt) (hg : goodUrl env sid q.1) :
    (processOne env target sid q st).newFound = st.newFound + 1 ∧
      (processOne env target sid q st).results.length = st.results.length + 1 := by
  obtain ⟨bn, ct, rt, rv, ad, ph, wb, hx, h1, h2, h3, hins⟩ := hg
  rw [processOne, hx]
  dsimp only
  rw [if_neg (by push_neg; exact ⟨h1, h2, h3⟩), hins]
  simp

/-- Processing a queue of good candidates long enough to cover the remaining
target drives the committed count exactly to the target. -/
lemma processUrls_good (env : ScrapeEnv) (target : Nat) (sid : Option Nat) :
    ∀ (l : List (String × Nat)) (st : LoopSt),
      (∀ q ∈ l, goodUrl env sid q.1) →
      st.newFound ≤ target →
      target ≤ st.newFound + l.length →
      st.results.length = st.newFound →
      (processUrls env target sid l st).newFound = target ∧
        (processUrls env target sid l st).results.length = target := by
  intro l
  induction l with
  | nil =>
    intro st _ hle hge hlen
    rw [processUrls]
    simp only [List.length_nil] at hge
    exact ⟨by omega, by omega⟩
  | cons q rest ih =>
    intro st hgood hle hge hlen
    rw [processUrls]
    split
    · obtain ⟨e1, e2⟩ := processOne_good env target sid q st
        (hgood q (List.mem_cons_self _ _))
      apply ih
      · exact fun q' hq' => hgood q' (List.mem_cons_of_mem _ hq')
      · omega
      · rw [e1]
        simp only [List.length_cons] at hge
        omega
      · omega
    · rename_i hnlt
      constructor
      · omega
      · omega

/-- With a stable card list and no scroll faults, the scroll loop only moves
the attempt counter. -/
lemma scrollLoop_const (env : ScrapeEnv) (target buffer : Nat) (L : List (Option String))
    (hc : ∀ s, env.cards s = L) (hf : ∀ s, env.scrollFault s = false) :
    ∀ fuel (st : LoopSt), st.allCards = L →
      ∃ n, scrollLoop env target buffer fuel st = .ok { st with scrollAttempts := n } := by
  intro fuel
  induction fuel with
  | zero => intro st _; exact ⟨st.scrollAttempts, rfl⟩
  | succ k ih =>
    intro st hL
    rw [scrollLoop]
    split
    · rw [hf st.scrollAttempts]
      simp only [Bool.false_eq_true, if_false]
      have hst2 : ({ st with
          scrollAttempts := st.scrollAttempts + 1
          allCards := env.cards (st.scrollAttempts + 1) } : LoopSt) =
          { st with scrollAttempts := st.scrollAttempts + 1 } := by
        rw [hc (st.scrollAttempts + 1), ← hL]
      rw [hst2]
      obtain ⟨n, hn⟩ := ih { st with scrollAttempts := st.scrollAttempts + 1 } hL
      exact ⟨n, hn⟩
    · exact ⟨st.scrollAttempts, rfl⟩

/-- Once the committed count has reached the target, the outer loop exits
immediately with the current state. -/
lemma mainLoop_done (env : ScrapeEnv) (target buffer : Nat)
    (existing : List String) (sid : Option Nat) (st : LoopSt)
    (h : ¬ st.newFound < target) :
    ∀ fuel, mainLoop env target buffer existing sid fuel st = .ok st := by
  intro fuel
  cases fuel with
  | zero => rfl
  | succ n =>
    rw [mainLoop]
    rw [if_neg (by intro hcontra; exact h hcontra.1)]

/-- An enumerated pair's payload is an element of the underlying list. -/
lemma enumFromIdx_fst_mem : ∀ (l : List α) (n : Nat) (q : α × Nat),
    q ∈ enumFromIdx n l → q.1 ∈ l := by
  intro l
  induction l with
  | nil => intro n q hq; exact absurd hq (List.not_mem_nil q)
  | cons a as ih =>
    intro n q hq
    rw [enumFromIdx] at hq
    rcases List.mem_cons.mp hq with hq | hq
    · subst hq
      exact List.mem_cons_self _ _
    · exact List.mem_cons_of_mem _ (ih (n + 1) q hq)

/-- Enumeration preserves length. -/
lemma enumFromIdx_length : ∀ (l : List α) (n : Nat),
    (enumFromIdx n l).length = l.length := by
  intro l
  induction l with
  | nil => intro n; rfl
  | cons a as ih =>
    intro n
    rw [enumFromIdx, List.length_cons, List.length_cons, ih (n + 1)]

/-- The readable URLs of the enumerated cards are the readable cards. -/
lemma enumFromIdx_filterMap_fst : ∀ (l : List (Option String)) (n : Nat),
    (enumFromIdx n l).filterMap Prod.fst = l.filterMap id := by
  intro l
  induction l with
  | nil => intro n; rfl
  | cons a as ih =>
    intro n
    rw [enumFromIdx]
    rcases a with _ | u
    · rw [List.filterMap_cons, List.filterMap_cons]
      exact ih (n + 1)
    · rw [List.filterMap_cons, List.filterMap_cons]
      show u :: (enumFromIdx (n + 1) as).filterMap Prod.fst = u :: as.filterMap id
      rw [ih (n + 1)]

/-- On an all-fresh, duplicate-free card segment, the collection pass queues
one URL per card up to its cap, and every queued entry comes from a card. -/
lemma collectUrls_length (existing : List String) (cap : Nat) :
    ∀ (pairs : List (Option String × Nat)) (p : List String) (dups : Nat)
      (acc : List (String × Nat)),
      (∀ q ∈ pairs, ∃ url, q.1 = some url ∧ url ∉ existing ∧ url ∉ p) →
      (pairs.filterMap Prod.fst).Nodup →
      acc.length < cap →
      (collectUrls existing cap pairs p dups acc).2.2.length =
          acc.length + min (cap - acc.length) pairs.length ∧
        (∀ q ∈ (collectUrls existing cap pairs p dups acc).2.2,
          q ∈ acc ∨ ∃ i, (some q.1, i) ∈ pairs) := by
  intro pairs
  induction pairs with
  | nil =>
    intro p dups acc _ _ _
    rw [collectUrls]
    refine ⟨by simp, ?_⟩
    intro q hq
    exact Or.inl hq
  | cons ci rest ih =>
    intro p dups acc hfresh hnodup hcap
    obtain ⟨c, i⟩ := ci
    obtain ⟨url, hurl, hex, hp⟩ := hfresh (c, i) (List.mem_cons_self _ _)
    dsimp only at hurl
    subst hurl
    rw [collectUrls]
    dsimp only
    rw [if_neg hp, if_neg hex]
    have hresturls : (rest.filterMap Prod.fst).Nodup ∧
        url ∉ rest.filterMap Prod.fst := by
      rw [List.filterMap_cons] at hnodup
      dsimp only at hnodup
      have := List.nodup_cons.mp hnodup
      exact ⟨this.2, this.1⟩
    by_cases hbreak : cap ≤ (acc ++ [(url, i)]).length
    · rw [if_pos hbreak]
      rw [List.length_append] at hbreak ⊢
      refine ⟨?_, ?_⟩
      · simp only [List.length_append, List.length_singleton, List.length_cons,
          List.length_nil] at hbreak ⊢
        omega
      · intro q hq
        rcases List.mem_append.mp hq with hq | hq
        · exact Or.inl hq
        · rw [List.mem_singleton] at hq
          subst hq
          exact Or.inr ⟨i, List.mem_cons_self _ _⟩
    · rw [if_neg hbreak]
      have hfresh' : ∀ q ∈ rest, ∃ u, q.1 = some u ∧ u ∉ existing ∧
          u ∉ url :: p := by
        intro q hq
        obtain ⟨u, hu, hue, hup⟩ := hfresh q (List.mem_cons_of_mem _ hq)
        refine ⟨u, hu, hue, ?_⟩
        intro hmem
        rcases List.mem_cons.mp hmem with hmem | hmem
        · subst hmem
          exact hresturls.2 (List.mem_filterMap.mpr ⟨q, hq, hu⟩)
        · exact hup hmem
      have hcap' : (acc ++ [(url, i)]).length < cap := by
        rw [List.length_append] at hbreak ⊢
        simp only [List.length_singleton] at hbreak ⊢
        omega
      obtain ⟨ih1, ih2⟩ := ih (url :: p) dups (acc ++ [(url, i)]) hfresh'
        hresturls.1 hcap'
      refine ⟨?_, ?_⟩
      · rw [ih1]
        simp only [List.length_append, List.length_singleton, List.length_cons,
          List.length_nil] at hbreak ⊢
        omega
      · intro q hq
        rcases ih2 q hq with hq2 | ⟨i', hi'⟩
        · rcases List.mem_append.mp hq2 with hq2 | hq2
          · exact Or.inl hq2
          · rw [List.mem_singleton] at hq2
            subst hq2
            exact Or.inr ⟨i, List.mem_cons_self _ _⟩
        · exact Or.inr ⟨i', List.mem_cons_of_mem _ hi'⟩

/-- When the source supplies, from the cursor on, only good, pairwise-distinct,
not-durably-known candidates and at least `t` of them, the first outer loop
iteration already commits exactly `t` records. -/
lemma mainLoop_exact (env : ScrapeEnv) (t ui : Nat) (sid : Option Nat)
    (existing : List String)
    (hpos : 0 < t)
    (hcards : ∀ s, env.cards s = env.cards 0)
    (hfault : ∀ s, env.scrollFault s = false)
    (hsupply : ui + t ≤ (env.cards 0).length)
    (hgood : ∀ c ∈ (env.cards 0).drop ui,
      ∃ url, c = some url ∧ url ∉ existing ∧ goodUrl env sid url)
    (hnodup : (((env.cards 0).drop ui).filterMap id).Nodup) :
    ∀ fuel, ∃ st', mainLoop env t 20 existing sid (fuel + 1) (initSt ui) = .ok st' ∧
      st'.newFound = t ∧ st'.results.length = t := by
  intro fuel
  obtain ⟨n, hn⟩ := scrollLoop_const env t 20 (env.cards 0) hcards hfault
    (maxScrollAttempts - (initSt ui).scrollAttempts)
    { initSt ui with allCards := env.cards (initSt ui).scrollAttempts } rfl
  have hload : loadCards env t 20 (initSt ui) =
      .ok { { initSt ui with allCards := env.cards (initSt ui).scrollAttempts }
        with scrollAttempts := n } := by
    rw [loadCards, if_pos (by show (0:Nat) < ui + t + 20; omega)]
    exact hn
  have hfresh : ∀ q ∈ enumFromIdx ui ((env.cards 0).drop ui),
      ∃ url, q.1 = some url ∧ url ∉ existing ∧ url ∉ ([] : List String) := by
    intro q hq
    obtain ⟨url, hc, hex, _⟩ := hgood q.1 (enumFromIdx_fst_mem _ ui q hq)
    exact ⟨url, hc, hex, List.not_mem_nil url⟩
  have hnodup' : ((enumFromIdx ui ((env.cards 0).drop ui)).filterMap
      Prod.fst).Nodup := by
    rw [enumFromIdx_filterMap_fst]
    exact hnodup
  obtain ⟨hclen, hcmem⟩ := collectUrls_length existing (t - 0 + 5)
    (enumFromIdx ui ((env.cards 0).drop ui)) [] 0 [] hfresh hnodup'
    (by simp only [List.length_nil]; omega)
  have htodolen : t ≤ (collectUrls existing (t - 0 + 5)
      (enumFromIdx ui ((env.cards 0).drop ui)) [] 0 []).2.2.length := by
    rw [hclen, enumFromIdx_length, List.length_drop]
    simp only [List.length_nil]
    omega
  have htodogood : ∀ q ∈ (collectUrls existing (t - 0 + 5)
      (enumFromIdx ui ((env.cards 0).drop ui)) [] 0 []).2.2,
      goodUrl env sid q.1 := by
    intro q hq
    rcases hcmem q hq with hq2 | ⟨i, hi⟩
    · exact absurd hq2 (List.not_mem_nil q)
    · obtain ⟨url, hc, _, hgu⟩ := hgood (some q.1, i).1
        (enumFromIdx_fst_mem _ ui _ hi)
      rw [Option.some_inj] at hc
      rw [hc]
      exact hgu
  obtain ⟨hnf, hlenX⟩ := processUrls_good env t sid
    (collectUrls existing (t - 0 + 5)
      (enumFromIdx ui ((env.cards 0).drop ui)) [] 0 []).2.2
    (⟨[], 0, (collectUrls existing (t - 0 + 5)
        (enumFromIdx ui ((env.cards 0).drop ui)) [] 0 []).1,
      (collectUrls existing (t - 0 + 5)
        (enumFromIdx ui ((env.cards 0).drop ui)) [] 0 []).2.1,
      ui, n, env.cards 0, [], [], []⟩ : LoopSt)
    htodogood (Nat.zero_le t) (by simpa using htodolen) rfl
  refine ⟨_, ?_, hnf, hlenX⟩
  rw [mainLoop]
  rw [if_pos (show (initSt ui).newFound < t ∧
      (initSt ui).scrollAttempts < maxScrollAttempts from
      ⟨hpos, by show (0:Nat) < maxScrollAttempts; decide⟩)]
  simp only [Bind.bind, Except.bind, hload]
  dsimp only [initSt]
  rw [if_neg (by rw [hnf]; exact lt_irrefl t)]
  exact mainLoop_done env t 20 existing sid _ (by rw [hnf]; exact lt_irrefl t) fuel

/-- `scrapeUrlsAndDetails` returns exactly `t` results under the supply
hypotheses of `mainLoop_exact`. -/
lemma scrape_exact (env : ScrapeEnv) (t ui : Nat) (sid : Option Nat)
    (existing : List String)
    (hpos : 0 < t)
    (hnav : env.initialNavFault = false)
    (hscr : env.scrollableFound = true)
    (hcards : ∀ s, env.cards s = env.cards 0)
    (hfault : ∀ s, env.scrollFault s = false)
    (hsupply : ui + t ≤ (env.cards 0).length)
    (hgood : ∀ c ∈ (env.cards 0).drop ui,
      ∃ url, c = some url ∧ url ∉ existing ∧ goodUrl env sid url)
    (hnodup : (((env.cards 0).drop ui).filterMap id).Nodup) :
    (scrapeUrlsAndDetails env t ui sid none 20 existing).results.length = t := by
  obtain ⟨st', hml, hnf, hlen⟩ := mainLoop_exact env t ui sid existing hpos
    hcards hfault hsupply hgood hnodup 101
  have hexec : scrapeExec env t ui sid none 20 existing = .ok st' := by
    rw [scrapeExec, hnav, hscr]
    simp only [Bool.false_eq_true, if_false]
    rw [if_neg (by simp)]
    exact hml
  rw [scrapeUrlsAndDetails, hexec]
  simp [targetOf, hlen]

/-- Supporting lemma, not the exact-count claim itself: when *every*
candidate from the resume cursor on is good (and no faults interfere) and
there are at least `maxResults` of them, the run does return exactly
`maxResults` records.  The unconditional exact-count claim fails on the code:
see `exact_count_failing_run`, where good candidates sitting behind a block
of incomplete ones are skipped. -/
theorem all_good_supply_exact (env : EnrichEnv) (maxResults : Nat)
    (hpos : 0 < maxResults)
    (hnav : env.scrape.initialNavFault = false)
    (hscr : env.scrape.scrollableFound = true)
    (hcards : ∀ s, env.scrape.cards s = env.scrape.cards 0)
    (hfault : ∀ s, env.scrape.scrollFault s = false)
    (hsupply : enrichUpdatedIndex env + maxResults ≤ (env.scrape.cards 0).length)
    (hgood : ∀ c ∈ (env.scrape.cards 0).drop (enrichUpdatedIndex env),
      ∃ url, c = some url ∧ url ∉ enrichExistingUrls env ∧
        goodUrl env.scrape env.sessionId url)
    (hnodup : (((env.scrape.cards 0).drop
      (enrichUpdatedIndex env)).filterMap id).Nodup) :
    (scrapeAndEnrich env maxResults).length = maxResults := by
  have hlen := scrape_exact env.scrape maxResults (enrichUpdatedIndex env)
    env.sessionId (enrichExistingUrls env) hpos hnav hscr hcards hfault
    hsupply hgood hnodup
  rw [scrapeAndEnrich]
  rw [if_neg (show ¬ (scrapeUrlsAndDetails env.scrape maxResults
      (enrichUpdatedIndex env) env.sessionId none 20
      (enrichExistingUrls env)).results.length = 0 by rw [hlen]; omega)]
  rw [correctResults.eq_def, if_neg (fun h => h hlen)]
  exact hlen

/-- A source with two distinct good candidates for a target of 2. -/
def exactSupplyEnv : ScrapeEnv :=
  { initialNavFault := false
    scrollableFound := true
    cards := fun _ => [some "A", some "B"]
    scrollFault := fun _ => false
    extract := fun _ => .ok "Biz" "" "" "" "Addr" "5551234" ""
    insertAttempt := fun _ _ => .insertedRows 1 }

/-- A fresh run (no durable progress) over `exactSupplyEnv`. -/
def exactSupplyRun : EnrichEnv :=
  { scrape := exactSupplyEnv
    permanentUrls := some []
    sessionId := none
    correctionRows := some [] }

/-- Witness instantiating `all_good_supply_exact`: the concrete
two-candidate all-good run returns exactly 2 records. -/
theorem all_good_supply_exact_witness :
    (0:Nat) < 2 ∧ (scrapeAndEnrich exactSupplyRun 2).length = 2 :=
  ⟨by decide,
    all_good_supply_exact exactSupplyRun 2 (by decide) rfl rfl (fun _ => rfl) (fun _ => rfl)
      (by decide)
      (by
        intro c hc
        have h2 : c ∈ [some "A", some "B"] := hc
        simp only [List.mem_cons, List.mem_singleton] at h2
        rcases h2 with rfl | rfl | h2
        rotate_right
        · exact absurd h2 (List.not_mem_nil c)
        · exact ⟨"A", rfl, by decide, "Biz", "", "", "", "Addr", "5551234", "",
            rfl, by decide, by decide, by decide, by decide⟩
        · exact ⟨"B", rfl, by decide, "Biz", "", "", "", "Addr", "5551234", "",
            rfl, by decide, by decide, by decide, by decide⟩)
      (by decide)⟩

/-- A source whose first seven candidates extract without the required fields
and whose last two, `g1` and `g2`, are distinct good candidates; the store
accepts every insert. -/
def mixedSupplyScrapeEnv : ScrapeEnv :=
  { initialNavFault := false
    scrollableFound := true
    cards := fun _ => [some "b1", some "b2", some "b3", some "b4", some "b5",
      some "b6", some "b7", some "g1", some "g2"]
    scrollFault := fun _ => false
    extract := fun url =>
      if url = "g1" ∨ url = "g2" then .ok "Biz" "" "" "" "Addr" "5551234" ""
      else .ok "" "" "" "" "" "" ""
    insertAttempt := fun _ _ => .insertedRows 1 }

/-- A fresh run over `mixedSupplyScrapeEnv` (no durable progress, empty
store). -/
def mixedSupplyEnv : EnrichEnv :=
  { scrape := mixedSupplyScrapeEnv
    permanentUrls := some []
    sessionId := none
    correctionRows := some [] }

/-- C1.  The exact-count claim fails on the code although it is the code's
documented intent: this run's candidate source supplies two distinct,
extractable, committable candidates — `g1` and `g2`, both on the page, not
durably known — for a target of 2, yet `scrapeAndEnrich` returns `[]`.  The
URL-collection cap `targetResults - newFound + 5 = 7` (line 495) queues only
the seven incomplete candidates in front of them; they all fail validation,
then `currentUpdatedIndex = allCards.length` (line 571) jumps the cursor past
`g1` and `g2`, the scroll budget exhausts with `newFound = 0`, and the
zero-commit early return yields the empty list. -/
theorem exact_count_failing_run :
    (some "g1" ∈ mixedSupplyScrapeEnv.cards 0 ∧
      some "g2" ∈ mixedSupplyScrapeEnv.cards 0 ∧
      ("g1" : String) ≠ "g2" ∧
      "g1" ∉ enrichExistingUrls mixedSupplyEnv ∧
      "g2" ∉ enrichExistingUrls mixedSupplyEnv) ∧
    goodUrl mixedSupplyScrapeEnv none "g1" ∧
    goodUrl mixedSupplyScrapeEnv none "g2" ∧
    scrapeAndEnrich mixedSupplyEnv 2 = [] :=
  ⟨by decide,
    ⟨"Biz", "", "", "", "Addr", "5551234", "", by decide, by decide, by decide,
      by decide, by decide⟩,
    ⟨"Biz", "", "", "", "Addr", "5551234", "", by decide, by decide, by decide,
      by decide, by decide⟩,
    by decide⟩
